import Mathlib

/-!
Verification development for the VITS2 flow stack of this repository:
the residual affine / transformer coupling layers and their composing
block (residual_coupling.py), the stochastic duration predictor
(duration_predictor.py), and the fbank extraction script
(compute_fbank_ljspeech.py).

A single batch element is modelled; a rank-3 tensor (B, C, T) becomes a
function from channel and time indices to rationals, a mask (B, 1, T)
becomes a function from time to rationals.  Submodules whose code is not
part of the modelled sources (WaveNet, Transformer, Conv1d, the flow
modules of flow.py) are embedded as arbitrary function parameters: every
theorem quantifies over them, so nothing proved depends on their
internals.  torch.exp is likewise a function parameter rexp; theorems
that need invertibility assume rexp a * rexp (-a) = 1.
-/

namespace Vits2

/-- One batch element of a (B, C, T) tensor: channel index, time index to value. -/
abbrev Mat : Type := Nat → Nat → ℚ

/-- One batch element of a (B, 1, T) mask: time index to value (0 or 1). -/
abbrev Mask : Type := Nat → ℚ

/-- Elementwise multiplication by the broadcast mask (`x * x_mask`). -/
def maskMul (mask : Mask) (x : Mat) : Mat := fun c t => x c t * mask t

/-- Elementwise tensor addition. -/
def matAdd (x y : Mat) : Mat := fun c t => x c t + y c t

/-- The all-zero tensor (`torch.zeros_like`). -/
def matZero : Mat := fun _ _ => 0

/-- First piece of a channel split: channels [0, h), zero beyond. -/
def takeRows (h : Nat) (x : Mat) : Mat := fun c t => if c < h then x c t else 0

/-- Second piece of a channel split: channels [h, h+cnt) reindexed from 0. -/
def dropRows (h cnt : Nat) (x : Mat) : Mat :=
  fun c t => if c < cnt then x (h + c) t else 0

/-- Channel concatenation (`torch.cat([xa, xb], 1)`), xa holding h channels. -/
def catRows (h : Nat) (xa xb : Mat) : Mat :=
  fun c t => if c < h then xa c t else xb (c - h) t

/-- Sum over channel indices below C and time indices below T
(`torch.sum(-, [1, 2])` on one batch element). -/
def sum2 (C T : Nat) (f : Nat → Nat → ℚ) : ℚ :=
  ∑ c ∈ Finset.range C, ∑ t ∈ Finset.range T, f c t

/-! ## ResidualAffineCouplingLayer (residual_coupling.py, lines 136-254)

The 1x1 input convolution, the WaveNet encoder and the 1x1 projection are
modules whose code is outside the modelled sources; they are abstract
function fields. -/

structure ACLParams where
  halfChannels : Nat
  useOnlyMean : Bool
  inputConv : Mat → Mat
  encoder : Mat → Mask → Option Mat → Mat
  proj : Mat → Mat

/-- The mean / log-scale statistics of the affine coupling layer:
`h = input_conv(xa) * x_mask; h = encoder(h, x_mask, g);
stats = proj(h) * x_mask`; then `m = stats, logs = 0` when only the mean
is estimated, else `m, logs = stats.split(stats.size(1) // 2, dim=1)`. -/
def aclStats (p : ACLParams) (xa : Mat) (mask : Mask) (g : Option Mat) : Mat × Mat :=
  let h := maskMul mask (p.inputConv xa)
  let h2 := p.encoder h mask g
  let stats := maskMul mask (p.proj h2)
  if p.useOnlyMean then (stats, matZero)
  else (takeRows p.halfChannels stats, dropRows p.halfChannels p.halfChannels stats)

/-- The map `ResidualAffineCouplingLayer.forward` with `inverse=False`:
split, `xb = m + xb * exp(logs) * x_mask`, concatenate,
`logdet = sum(logs, [1, 2])`. -/
def aclForward (p : ACLParams) (rexp : ℚ → ℚ) (x : Mat) (mask : Mask)
    (g : Option Mat) (T : Nat) : Mat × ℚ :=
  let xa := takeRows p.halfChannels x
  let xb := dropRows p.halfChannels p.halfChannels x
  let ms := aclStats p xa mask g
  let xb2 : Mat := fun c t => ms.1 c t + xb c t * rexp (ms.2 c t) * mask t
  (catRows p.halfChannels xa xb2, sum2 p.halfChannels T (fun c t => ms.2 c t))

/-- The map `ResidualAffineCouplingLayer.forward` with `inverse=True`:
split, `xb = (xb - m) * exp(-logs) * x_mask`, concatenate. -/
def aclInverse (p : ACLParams) (rexp : ℚ → ℚ) (x : Mat) (mask : Mask)
    (g : Option Mat) : Mat :=
  let xa := takeRows p.halfChannels x
  let xb := dropRows p.halfChannels p.halfChannels x
  let ms := aclStats p xa mask g
  let xb2 : Mat := fun c t => (xb c t - ms.1 c t) * rexp (-(ms.2 c t)) * mask t
  catRows p.halfChannels xa xb2

/-! ## ResidualCouplingTransformersLayer (residual_coupling.py, lines 257-410) -/

structure RCTLParams where
  halfChannels : Nat
  useOnlyMean : Bool
  usePostTransformer : Bool
  preTransformer : Mat → (Nat → Bool) → Mat
  postTransformer : Mat → (Nat → Bool) → Mat
  inputConv : Mat → Mat
  encoder : Mat → Mask → Option Mat → Mat
  proj : Mat → Mat

/-- The boolean mask `torch.where(torch.squeeze(x_mask) > 0, True, False)`. -/
def tMask (mask : Mask) : Nat → Bool := fun t => decide (0 < mask t)

/-- Statistics of the transformer coupling layer, computed from the
residual-updated first half `xa2 = xa + pre_transformer(xa)`. -/
def rctlStats (p : RCTLParams) (xa2 : Mat) (mask : Mask) (g : Option Mat) : Mat × Mat :=
  let h := maskMul mask (p.inputConv xa2)
  let h2 := p.encoder h mask g
  let h3 := if p.usePostTransformer
    then matAdd h2 (p.postTransformer h2 (tMask mask)) else h2
  let stats := maskMul mask (p.proj h3)
  if p.useOnlyMean then (stats, matZero)
  else (takeRows p.halfChannels stats, dropRows p.halfChannels p.halfChannels stats)

/-- The map `ResidualCouplingTransformersLayer.forward` with `inverse=False`.
Note the source rebinds `xa = xa + xa_trans` and concatenates that
rebound tensor, not the original half. -/
def rctlForward (p : RCTLParams) (rexp : ℚ → ℚ) (x : Mat) (mask : Mask)
    (g : Option Mat) (T : Nat) : Mat × ℚ :=
  let xa := takeRows p.halfChannels x
  let xb := dropRows p.halfChannels p.halfChannels x
  let xaT := p.preTransformer xa (tMask mask)
  let xa2 := matAdd xa xaT
  let ms := rctlStats p xa2 mask g
  let xb2 : Mat := fun c t => ms.1 c t + xb c t * rexp (ms.2 c t) * mask t
  (catRows p.halfChannels xa2 xb2, sum2 p.halfChannels T (fun c t => ms.2 c t))

/-- The map `ResidualCouplingTransformersLayer.forward` with `inverse=True`;
the same residual update of the first half precedes the affine inverse. -/
def rctlInverse (p : RCTLParams) (rexp : ℚ → ℚ) (x : Mat) (mask : Mask)
    (g : Option Mat) : Mat :=
  let xa := takeRows p.halfChannels x
  let xb := dropRows p.halfChannels p.halfChannels x
  let xaT := p.preTransformer xa (tMask mask)
  let xa2 := matAdd xa xaT
  let ms := rctlStats p xa2 mask g
  let xb2 : Mat := fun c t => (xb c t - ms.1 c t) * rexp (-(ms.2 c t)) * mask t
  catRows p.halfChannels xa2 xb2

/-! ## Concrete instances used to evaluate the transformer layer -/

/-- The all-ones mask (every timestep valid). -/
def onesMask : Mask := fun _ => 1

/-- An exp-like function for concrete evaluation; it satisfies
rexpOne a * rexpOne (-a) = 1. -/
def rexpOne : ℚ → ℚ := fun _ => 1

/-- A transformer coupling layer with half_channels = 1, zero-initialized
projection (so m = logs = 0, exactly how the source initializes it), zero
encoder, and a pre-transformer whose output is constantly 1. -/
def rctlP1 : RCTLParams :=
  { halfChannels := 1
    useOnlyMean := true
    usePostTransformer := false
    preTransformer := fun _ _ => fun _ _ => 1
    postTransformer := fun _ _ => matZero
    inputConv := fun _ => matZero
    encoder := fun _ _ _ => matZero
    proj := fun _ => matZero }

/-! ## Where the round trip does hold: the affine coupling layer -/

/-- For the ResidualAffineCouplingLayer the inverse does undo the forward
pass exactly, for every statistics network, whenever the mask is 0/1
valued, x vanishes on masked-out positions, and rexp a * rexp (-a) = 1. -/
theorem acl_roundtrip (p : ACLParams) (rexp : ℚ → ℚ) (x : Mat) (mask : Mask)
    (g : Option Mat) (T : Nat)
    (hexp : ∀ a, rexp a * rexp (-a) = 1)
    (hm : ∀ t, mask t = 0 ∨ mask t = 1)
    (hx : ∀ c t, mask t = 0 → x c t = 0) :
    ∀ t, ∀ c < 2 * p.halfChannels,
      aclInverse p rexp (aclForward p rexp x mask g T).1 mask g c t = x c t := by
  intro t c hc
  have hsplit : takeRows p.halfChannels (aclForward p rexp x mask g T).1
      = takeRows p.halfChannels x := by
    funext c' t'
    simp only [takeRows, aclForward, catRows]
    by_cases h : c' < p.halfChannels <;> simp [h]
  simp only [aclInverse, hsplit]
  by_cases h : c < p.halfChannels
  · simp only [catRows, takeRows, if_pos h]
  · simp only [catRows, takeRows, if_neg h]
    have hc' : c - p.halfChannels < p.halfChannels := by omega
    have hcc : p.halfChannels + (c - p.halfChannels) = c := by omega
    simp only [dropRows, aclForward, catRows, if_pos hc', hcc, if_neg h]
    rcases hm t with h0 | h1
    · rw [h0, hx c t h0]; ring
    · rw [h1]
      set m := (aclStats p (takeRows p.halfChannels x) mask g).1 (c - p.halfChannels) t with hm1
      set L := (aclStats p (takeRows p.halfChannels x) mask g).2 (c - p.halfChannels) t with hm2
      have := hexp L
      calc (m + x c t * rexp L * 1 - m) * rexp (-L) * 1
          = x c t * (rexp L * rexp (-L)) := by ring
        _ = x c t := by rw [this]; ring

/-- C1: for the ResidualCouplingTransformersLayer the inverse does not
undo the forward pass.  With half_channels = 1, zero-initialized
projection (hence m = logs = 0), zero encoder, a pre-transformer that
outputs the constant 1, the all-ones mask and x = 0, the first channel of
inverse(forward(x)) is 2 while x is 0 there — the source concatenates the
residual-updated half xa + pre_transformer(xa) instead of the original
half, so the inverse adds the residual again instead of undoing it. -/
theorem claim_C1_transformer_roundtrip_fails :
    rctlInverse rctlP1 rexpOne
        (rctlForward rctlP1 rexpOne matZero onesMask none 1).1 onesMask none 0 0 = 2
      ∧ matZero 0 0 = 0 ∧ onesMask 0 = 1
      ∧ (∀ a, rexpOne a * rexpOne (-a) = 1) := by
  refine ⟨?_, rfl, rfl, fun a => by norm_num [rexpOne]⟩
  norm_num [rctlInverse, rctlForward, rctlStats, rctlP1, takeRows, dropRows,
    catRows, matAdd, matZero, maskMul, tMask, rexpOne, onesMask]

/-- C2: the first half of the channel dimension is not passed through
unchanged by the ResidualCouplingTransformersLayer: on the same concrete
instance, the first channel of the forward output is 1 and the first channel of
the inverse output is 1, while the first channel of the input is 0. -/
theorem claim_C2_transformer_passthrough_fails :
    (rctlForward rctlP1 rexpOne matZero onesMask none 1).1 0 0 = 1
      ∧ rctlInverse rctlP1 rexpOne matZero onesMask none 0 0 = 1
      ∧ matZero 0 0 = 0 := by
  refine ⟨?_, ?_, rfl⟩ <;>
    norm_num [rctlInverse, rctlForward, rctlStats, rctlP1, takeRows, dropRows,
      catRows, matAdd, matZero, maskMul, tMask, rexpOne, onesMask]

/-- The affine coupling layer does pass its first half through unchanged
in both directions, for every statistics network and every input. -/
theorem acl_passthrough (p : ACLParams) (rexp : ℚ → ℚ) (x : Mat) (mask : Mask)
    (g : Option Mat) (T : Nat) :
    ∀ t, ∀ c < p.halfChannels,
      (aclForward p rexp x mask g T).1 c t = x c t
        ∧ aclInverse p rexp x mask g c t = x c t := by
  intro t c hc
  constructor <;> simp [aclForward, aclInverse, catRows, takeRows, hc]

/-- C3: the forward (non-inverse) direction of the affine coupling layer:
with m and logs the statistics derived from xa, the first half of the
output is xa, the second half is m + xb * rexp(logs) * mask, the returned
log-determinant is the sum of logs * mask over channels and time, and when
only the mean is estimated logs is identically zero and the
log-determinant is zero. -/
theorem claim_C3_acl_forward_formula (p : ACLParams) (rexp : ℚ → ℚ) (x : Mat)
    (mask : Mask) (g : Option Mat) (T : Nat)
    (hm : ∀ t, mask t = 0 ∨ mask t = 1) :
    (∀ t, ∀ c < p.halfChannels, (aclForward p rexp x mask g T).1 c t = x c t)
      ∧ (∀ t, ∀ c < p.halfChannels,
          (aclForward p rexp x mask g T).1 (p.halfChannels + c) t
            = (aclStats p (takeRows p.halfChannels x) mask g).1 c t
              + x (p.halfChannels + c) t
                * rexp ((aclStats p (takeRows p.halfChannels x) mask g).2 c t)
                * mask t)
      ∧ (aclForward p rexp x mask g T).2
          = sum2 p.halfChannels T
              (fun c t => (aclStats p (takeRows p.halfChannels x) mask g).2 c t * mask t)
      ∧ (p.useOnlyMean = true →
          (∀ c t, (aclStats p (takeRows p.halfChannels x) mask g).2 c t = 0)
            ∧ (aclForward p rexp x mask g T).2 = 0) := by
  have hmask : ∀ c t, (aclStats p (takeRows p.halfChannels x) mask g).2 c t * mask t
      = (aclStats p (takeRows p.halfChannels x) mask g).2 c t := by
    intro c t
    rcases hm t with h0 | h1
    · have hz : (aclStats p (takeRows p.halfChannels x) mask g).2 c t = 0 := by
        simp only [aclStats]
        by_cases hu : p.useOnlyMean
        · simp [hu, matZero]
        · simp only [hu, if_false, Bool.false_eq_true]
          simp only [dropRows, maskMul]
          by_cases hcn : c < p.halfChannels
          · simp [hcn, h0]
          · simp [hcn]
      rw [hz, h0]; ring
    · rw [h1]; ring
  refine ⟨?_, ?_, ?_, ?_⟩
  · intro t c hc
    simp [aclForward, catRows, takeRows, hc]
  · intro t c hc
    have hnt : ¬ p.halfChannels + c < p.halfChannels := by omega
    simp only [aclForward, catRows, if_neg hnt, Nat.add_sub_cancel_left]
    simp only [dropRows, if_pos hc]
  · simp only [aclForward, sum2]
    refine Finset.sum_congr rfl fun c _ => Finset.sum_congr rfl fun t _ => ?_
    exact (hmask c t).symm
  · intro hu
    have hz : ∀ c t, (aclStats p (takeRows p.halfChannels x) mask g).2 c t = 0 := by
      intro c t; simp [aclStats, hu, matZero]
    refine ⟨hz, ?_⟩
    simp only [aclForward, sum2]
    refine Finset.sum_eq_zero fun c _ => Finset.sum_eq_zero fun t _ => hz c t

/-- Witness for C3: the forward formula evaluated at a concrete instance
(half_channels = 1, zero networks, rexpOne, all-ones mask). -/
def aclP1 : ACLParams :=
  { halfChannels := 1
    useOnlyMean := true
    inputConv := fun _ => matZero
    encoder := fun _ _ _ => matZero
    proj := fun _ => matZero }

/-- Witness for claim C3 at the concrete instance aclP1. -/
theorem claim_C3_witness :
    (∀ t, onesMask t = 0 ∨ onesMask t = 1)
      ∧ ((∀ t, ∀ c < aclP1.halfChannels,
            (aclForward aclP1 rexpOne matZero onesMask none 1).1 c t = matZero c t)
          ∧ (∀ t, ∀ c < aclP1.halfChannels,
              (aclForward aclP1 rexpOne matZero onesMask none 1).1 (aclP1.halfChannels + c) t
                = (aclStats aclP1 (takeRows aclP1.halfChannels matZero) onesMask none).1 c t
                  + matZero (aclP1.halfChannels + c) t
                    * rexpOne ((aclStats aclP1 (takeRows aclP1.halfChannels matZero) onesMask none).2 c t)
                    * onesMask t)
          ∧ (aclForward aclP1 rexpOne matZero onesMask none 1).2
              = sum2 aclP1.halfChannels 1
                  (fun c t => (aclStats aclP1 (takeRows aclP1.halfChannels matZero) onesMask none).2 c t * onesMask t)
          ∧ (aclP1.useOnlyMean = true →
              (∀ c t, (aclStats aclP1 (takeRows aclP1.halfChannels matZero) onesMask none).2 c t = 0)
                ∧ (aclForward aclP1 rexpOne matZero onesMask none 1).2 = 0)) :=
  ⟨fun _ => Or.inr rfl,
    claim_C3_acl_forward_formula aclP1 rexpOne matZero onesMask none 1 (fun _ => Or.inr rfl)⟩

/-! ## FlipFlow and ResidualCouplingBlock (residual_coupling.py, lines 22-133) -/

/-- Modelled from the spec: FlipFlow (its code lives in flow.py, outside
the modelled sources).  Forward and inverse are identical — reverse the
channel-axis order of a C-channel tensor — and the log-determinant is
always 0. -/
def flipFlow (C : Nat) (x : Mat) : Mat := fun c t => x (C - 1 - c) t

/-- One stage of the block: the pair of its forward map (tensor and
log-determinant) and its inverse map. -/
structure BlockStage where
  fwd : Mat → Mask → Option Mat → Mat × ℚ
  inv : Mat → Mask → Option Mat → Mat

/-- A ResidualAffineCouplingLayer as a block stage. -/
def aclStage (p : ACLParams) (rexp : ℚ → ℚ) (T : Nat) : BlockStage :=
  { fwd := fun x mask g => aclForward p rexp x mask g T
    inv := fun x mask g => aclInverse p rexp x mask g }

/-- A ResidualCouplingTransformersLayer as a block stage. -/
def rctlStage (p : RCTLParams) (rexp : ℚ → ℚ) (T : Nat) : BlockStage :=
  { fwd := fun x mask g => rctlForward p rexp x mask g T
    inv := fun x mask g => rctlInverse p rexp x mask g }

/-- A FlipFlow as a block stage. -/
def flipStage (C : Nat) : BlockStage :=
  { fwd := fun x _ _ => (flipFlow C x, 0)
    inv := fun x _ _ => flipFlow C x }

/-- The constructor `ResidualCouplingBlock.__init__`: for each i below flows, append one
coupling layer (transformer or plain by use_transformer_flows) and then
one FlipFlow. -/
def mkResidualCouplingBlock (flows : Nat) (useTransformerFlows : Bool)
    (aclP : Nat → ACLParams) (rctlP : Nat → RCTLParams)
    (rexp : ℚ → ℚ) (C T : Nat) : List BlockStage :=
  (List.range flows).flatMap (fun i =>
    [if useTransformerFlows then rctlStage (rctlP i) rexp T
      else aclStage (aclP i) rexp T,
     flipStage C])

/-- The map `ResidualCouplingBlock.forward`: with inverse=False fold the stage
list left to right keeping only the tensor component of each result; with
inverse=True fold the reversed stage list through the inverse of each stage. -/
def blockForward (stages : List BlockStage) (x : Mat) (mask : Mask)
    (g : Option Mat) (inverse : Bool) : Mat :=
  if inverse then List.foldl (fun z s => s.inv z mask g) x stages.reverse
  else List.foldl (fun z s => (s.fwd z mask g).1) x stages

/-- C6: ResidualCouplingBlock.forward has exactly two modes (inverse is a
boolean): with inverse=False it applies its constructed stages in
left-to-right order, discarding the log-determinant of every stage and
returning only the transformed tensor; with inverse=True it applies
exactly the reversed sequence of stages, each through its own inverse
(equivalently, a right fold over the construction order). -/
theorem claim_C6_block_modes (flows : Nat) (useTransformerFlows : Bool)
    (aclP : Nat → ACLParams) (rctlP : Nat → RCTLParams) (rexp : ℚ → ℚ)
    (C T : Nat) (x : Mat) (mask : Mask) (g : Option Mat) :
    blockForward (mkResidualCouplingBlock flows useTransformerFlows aclP rctlP rexp C T)
        x mask g false
      = List.foldl (fun z s => (s.fwd z mask g).1) x
          (mkResidualCouplingBlock flows useTransformerFlows aclP rctlP rexp C T)
      ∧ blockForward (mkResidualCouplingBlock flows useTransformerFlows aclP rctlP rexp C T)
          x mask g true
        = List.foldr (fun s z => s.inv z mask g) x
            (mkResidualCouplingBlock flows useTransformerFlows aclP rctlP rexp C T) := by
  refine ⟨rfl, ?_⟩
  simp only [blockForward, if_pos]
  exact List.foldl_reverse _ _ _

/-! ## StochasticDurationPredictor (duration_predictor.py, lines 26-193)

The flow modules built in `__init__` (ElementwiseAffineFlow, ConvFlow,
FlipFlow, LogFlow, from flow.py, outside the modelled sources) are
abstract: each is a forward map returning a tensor and a log-determinant
plus an inverse map.  torch.randn draws are explicit noise arguments
(noiseQ for the posterior draw, noiseZ for the sampling draw). -/

structure FlowMod where
  fwd : Mat → Mask → Mat → Mat × ℚ
  inv : Mat → Mask → Mat → Mat

/-- Failures of `StochasticDurationPredictor.forward`: the
`assert w is not None` of likelihood mode, and the AttributeError of
using global conditioning when `global_channels <= 0` left
`self.global_conv` undefined. -/
inductive SDPErr
  | invalidInput
  | missingGlobalConv
deriving DecidableEq

/-- The two result shapes of `StochasticDurationPredictor.forward`:
the per-utterance negative log-likelihood, or the log-duration tensor. -/
inductive SDPOut
  | nll (v : ℚ)
  | logw (m : Mat)

structure SDPParams where
  pre : Mat → Mat
  globalConv : Option (Mat → Mat)
  dds : Mat → Mask → Mat
  proj : Mat → Mat
  postPre : Mat → Mat
  postDds : Mat → Mask → Mat
  postProj : Mat → Mat
  postFlows : List FlowMod
  flows : List FlowMod
  logFlow : Mat → Mask → Mat × ℚ
  sigmoid : ℚ → ℚ
  logSigmoid : ℚ → ℚ
  log2pi : ℚ

/-- The constructor `StochasticDurationPredictor.__init__`: the main and posterior flow
lists each start with an ElementwiseAffineFlow followed by, for every i
below flows, a ConvFlow and a FlipFlow; `self.global_conv` exists exactly
when `global_channels > 0`. -/
def mkSDPParams (globalChannels : Int) (nflows : Nat)
    (preC : Mat → Mat) (ddsC : Mat → Mask → Mat) (projC : Mat → Mat)
    (postPreC : Mat → Mat) (postDdsC : Mat → Mask → Mat) (postProjC : Mat → Mat)
    (gcC : Mat → Mat)
    (eaMain : FlowMod) (convMain : Nat → FlowMod)
    (eaPost : FlowMod) (convPost : Nat → FlowMod) (flipM : FlowMod)
    (lf : Mat → Mask → Mat × ℚ) (sig lsig : ℚ → ℚ) (l2p : ℚ) : SDPParams :=
  { pre := preC
    globalConv := if globalChannels > 0 then some gcC else none
    dds := ddsC
    proj := projC
    postPre := postPreC
    postDds := postDdsC
    postProj := postProjC
    postFlows := eaPost :: (List.range nflows).flatMap (fun i => [convPost i, flipM])
    flows := eaMain :: (List.range nflows).flatMap (fun i => [convMain i, flipM])
    logFlow := lf
    sigmoid := sig
    logSigmoid := lsig
    log2pi := l2p }

/-- The shared preamble of both modes (lines 130-135): detach (a no-op on
values), `x = pre(x)`, add the projected global conditioning when g is
given (an AttributeError when `self.global_conv` does not exist), then
`x = dds(x, x_mask)` and `x = proj(x) * x_mask`. -/
def sdpPreamble (p : SDPParams) (x : Mat) (mask : Mask) (g : Option Mat) :
    Except SDPErr Mat :=
  let x1 := p.pre x
  match g with
  | none => Except.ok (maskMul mask (p.proj (p.dds x1 mask)))
  | some gv =>
    match p.globalConv with
    | none => Except.error SDPErr.missingGlobalConv
    | some gc => Except.ok (maskMul mask (p.proj (p.dds (matAdd x1 (gc gv)) mask)))

/-- One step of the paired (tensor, accumulated log-determinant) fold
over a flow chain: `z, logdet = flow(z, x_mask, g=gt); logdet_tot += logdet`. -/
def stepP (mask : Mask) (gt : Mat) (acc : Mat × ℚ) (f : FlowMod) : Mat × ℚ :=
  ((f.fwd acc.1 mask gt).1, acc.2 + (f.fwd acc.1 mask gt).2)

/-- Likelihood mode (lines 139-177), given the preamble output feat and
the posterior noise draw noiseQ.  z_u is the first channel of z_q, z1 the
second; `u = sigmoid(z_u) * x_mask`, `z0 = (w - u) * x_mask`; the log flow
and then every main flow accumulate log-determinants into logdet_tot. -/
def sdpLikelihood (p : SDPParams) (feat : Mat) (mask : Mask) (w : Mat)
    (noiseQ : Mat) (T : Nat) : ℚ :=
  let hw := maskMul mask (p.postProj (p.postDds (p.postPre w) mask))
  let eqm := maskMul mask noiseQ
  let pf := List.foldl (stepP mask (matAdd feat hw)) (eqm, 0) p.postFlows
  let zq := pf.1
  let z1 := dropRows 1 1 zq
  let u : Nat → ℚ := fun t => p.sigmoid (zq 0 t) * mask t
  let z0 : Mat := fun c t => if c = 0 then (w 0 t - u t) * mask t else 0
  let ldq := pf.2
    + ∑ t ∈ Finset.range T, (p.logSigmoid (zq 0 t) + p.logSigmoid (-(zq 0 t))) * mask t
  let logq := sum2 2 T (fun c t => -(1/2 : ℚ) * (p.log2pi + (eqm c t)^2) * mask t) - ldq
  let lf := p.logFlow z0 mask
  let z := catRows 1 lf.1 z1
  let mf := List.foldl (stepP mask feat) (z, lf.2) p.flows
  let nll := sum2 2 T (fun c t => (1/2 : ℚ) * (p.log2pi + (mf.1 c t)^2) * mask t) - mf.2
  nll + logq

/-- The reversed-and-elided flow list of sampling mode (lines 179-180):
`flows = list(reversed(self.flows)); flows = flows[:-2] + [flows[-1]]`. -/
def invList {α : Type} (l : List α) : List α :=
  l.reverse.take (l.reverse.length - 2) ++ l.reverse.drop (l.reverse.length - 1)

/-- Sampling mode (lines 179-193), given the noise draw noiseZ:
`z = randn * noise_scale`, pushed through the inverse of each elided
reversed flow; `z0, z1 = z.split(1, 1); logw = z0`. -/
def sdpSample (p : SDPParams) (feat : Mat) (mask : Mask) (noiseScale : ℚ)
    (noiseZ : Mat) : Mat :=
  let fl := invList p.flows
  let z0 : Mat := fun c t => noiseZ c t * noiseScale
  let z := List.foldl (fun z f => f.inv z mask feat) z0 fl
  takeRows 1 z

/-- The map `StochasticDurationPredictor.forward`: shared preamble, then the
likelihood branch (requiring w) when inverse is false, else the sampling
branch. -/
def sdpForward (p : SDPParams) (x : Mat) (mask : Mask) (w : Option Mat)
    (g : Option Mat) (inverse : Bool) (noiseScale : ℚ) (noiseQ noiseZ : Mat)
    (T : Nat) : Except SDPErr SDPOut :=
  match sdpPreamble p x mask g with
  | Except.error e => Except.error e
  | Except.ok feat =>
    if inverse = false then
      match w with
      | none => Except.error SDPErr.invalidInput
      | some wv => Except.ok (SDPOut.nll (sdpLikelihood p feat mask wv noiseQ T))
    else Except.ok (SDPOut.logw (sdpSample p feat mask noiseScale noiseZ))

/-! ## Decomposing the paired flow folds -/

/-- The tensor component of a flow chain applied in forward direction. -/
def chainZ (fl : List FlowMod) (mask : Mask) (gt : Mat) (z0 : Mat) : Mat :=
  List.foldl (fun z f => (f.fwd z mask gt).1) z0 fl

/-- The accumulated log-determinant of a flow chain applied in forward
direction. -/
def chainLD (fl : List FlowMod) (mask : Mask) (gt : Mat) (z0 : Mat) : ℚ :=
  (List.foldl (stepP mask gt) (z0, 0) fl).2

/-- The paired fold over a flow chain is the pair of the tensor fold and
the initial value plus the accumulated log-determinant. -/
theorem chain_pair_eq (fl : List FlowMod) (mask : Mask) (gt : Mat) :
    ∀ (z0 : Mat) (d0 : ℚ),
      List.foldl (stepP mask gt) (z0, d0) fl
        = (chainZ fl mask gt z0, d0 + chainLD fl mask gt z0) := by
  induction fl with
  | nil => intro z0 d0; simp [chainZ, chainLD]
  | cons f fs ih =>
    intro z0 d0
    have hstep : stepP mask gt (z0, d0) f
        = ((f.fwd z0 mask gt).1, d0 + (f.fwd z0 mask gt).2) := rfl
    have h1 : chainZ (f :: fs) mask gt z0 = chainZ fs mask gt (f.fwd z0 mask gt).1 := by
      simp [chainZ]
    have e1 : chainLD (f :: fs) mask gt z0
        = (List.foldl (stepP mask gt)
            ((f.fwd z0 mask gt).1, 0 + (f.fwd z0 mask gt).2) fs).2 := rfl
    have h2 : chainLD (f :: fs) mask gt z0
        = (f.fwd z0 mask gt).2 + chainLD fs mask gt (f.fwd z0 mask gt).1 := by
      rw [e1, ih]
      show (0 + (f.fwd z0 mask gt).2) + chainLD fs mask gt (f.fwd z0 mask gt).1 = _
      ring
    simp only [List.foldl_cons, hstep]
    rw [ih, h1, h2]
    refine congrArg (Prod.mk _) ?_
    ring

/-! ## The flow chain of sampling mode, symbolically -/

/-- The kinds of modules appended to `self.flows` in
`StochasticDurationPredictor.__init__`: the leading ElementwiseAffineFlow,
then alternating ConvFlow (tagged with its construction index) and
FlipFlow stages. -/
inductive SDPFlowTag
  | ea
  | conv (i : Nat)
  | flip
deriving DecidableEq

/-- The construction order of `self.flows` for a predictor built with n
flows: ElementwiseAffineFlow, then for each i below n a ConvFlow and a
FlipFlow. -/
def mkSDPFlowTags (n : Nat) : List SDPFlowTag :=
  SDPFlowTag.ea :: (List.range n).flatMap (fun i => [SDPFlowTag.conv i, SDPFlowTag.flip])

/-- The stage sequence actually applied by sampling mode:
`list(reversed(self.flows))` with `flows[:-2] + [flows[-1]]` applied. -/
def sdpInferenceTags (n : Nat) : List SDPFlowTag := invList (mkSDPFlowTags n)

/-- The main flow list of a predictor with n flows has 2n + 1 stages. -/
theorem mkSDPFlowTags_length (n : Nat) : (mkSDPFlowTags n).length = 2 * n + 1 := by
  induction n with
  | zero => rfl
  | succ m ih =>
    simp only [mkSDPFlowTags, List.length_cons] at ih
    simp only [mkSDPFlowTags, List.range_succ, List.flatMap_append, List.flatMap_cons,
      List.flatMap_nil, List.length_cons, List.length_append, List.length_nil]
    omega

/-- The sampling-mode elision commutes with interpreting stage tags as
semantic flow modules. -/
theorem invList_map {α β : Type} (f : α → β) (l : List α) :
    invList (l.map f) = (invList l).map f := by
  simp only [invList, List.map_reverse, List.length_map, List.length_reverse,
    List.map_append, List.map_take, List.map_drop]

/-- C4 counterexample: the stage sequence of sampling mode (for the
default 4 flows) cannot be obtained from the reversed training-time chain
by removing any flip-flow stage: every such removal keeps all four
ConvFlow stages, while the elision in the code drops one of them. -/
theorem claim_C4_counterexample :
    ¬ ∃ i : Fin (mkSDPFlowTags 4).reverse.length,
        (mkSDPFlowTags 4).reverse.get i = SDPFlowTag.flip
          ∧ sdpInferenceTags 4 = (mkSDPFlowTags 4).reverse.eraseIdx i.val := by
  decide

/-- C4 (amended): in sampling mode the StochasticDurationPredictor
applies the reversal of its training-time main flow chain with the
second-to-last stage of the reversed chain removed — that stage is the
first-constructed ConvFlow (the one adjacent to the
ElementwiseAffineFlow), not a flip-flow — then splits the 2-channel
result and returns the first channel as the predicted log-duration
tensor.  The third conjunct ties the symbolic chain to any semantic
interpretation of its stages, the fourth states the constructed
flow list of the constructed predictor is that interpretation, and the last evaluates
sampling mode itself. -/
theorem claim_C4_inference_chain (n : Nat) (hn : 1 ≤ n) :
    sdpInferenceTags n = (mkSDPFlowTags n).reverse.eraseIdx (2 * n - 1)
      ∧ (mkSDPFlowTags n).reverse[2 * n - 1]? = some (SDPFlowTag.conv 0)
      ∧ (∀ f : SDPFlowTag → FlowMod,
          invList ((mkSDPFlowTags n).map f) = (sdpInferenceTags n).map f)
      ∧ (∀ (gch : Int) (preC : Mat → Mat) (ddsC : Mat → Mask → Mat) (projC : Mat → Mat)
          (postPreC : Mat → Mat) (postDdsC : Mat → Mask → Mat) (postProjC : Mat → Mat)
          (gcC : Mat → Mat) (eaMain : FlowMod) (convMain : Nat → FlowMod)
          (eaPost : FlowMod) (convPost : Nat → FlowMod) (flipM : FlowMod)
          (lf : Mat → Mask → Mat × ℚ) (sig lsig : ℚ → ℚ) (l2p : ℚ),
          (mkSDPParams gch n preC ddsC projC postPreC postDdsC postProjC gcC
              eaMain convMain eaPost convPost flipM lf sig lsig l2p).flows
            = (mkSDPFlowTags n).map (fun tag =>
                match tag with
                | SDPFlowTag.ea => eaMain
                | SDPFlowTag.conv i => convMain i
                | SDPFlowTag.flip => flipM))
      ∧ (∀ (p : SDPParams) (x : Mat) (mask : Mask) (w g : Option Mat)
          (ns : ℚ) (nq nz : Mat) (T : Nat) (feat : Mat),
          sdpPreamble p x mask g = Except.ok feat →
          sdpForward p x mask w g true ns nq nz T
            = Except.ok (SDPOut.logw (takeRows 1
                (List.foldl (fun z f => f.inv z mask feat)
                  (fun c t => nz c t * ns) (invList p.flows))))) := by
  have hlen : (mkSDPFlowTags n).reverse.length = 2 * n + 1 := by
    rw [List.length_reverse, mkSDPFlowTags_length]
  refine ⟨?_, ?_, fun f => invList_map f _, ?_, ?_⟩
  · rw [sdpInferenceTags, invList, hlen]
    rw [List.eraseIdx_eq_take_drop_succ]
    have h1 : 2 * n + 1 - 2 = 2 * n - 1 := by omega
    have h2 : 2 * n + 1 - 1 = 2 * n - 1 + 1 := by omega
    rw [h1, h2]
  · have hlt : 2 * n - 1 < (mkSDPFlowTags n).length := by
      rw [mkSDPFlowTags_length]; omega
    rw [List.getElem?_reverse hlt, mkSDPFlowTags_length]
    have h1 : 2 * n + 1 - 1 - (2 * n - 1) = 1 := by omega
    rw [h1]
    obtain ⟨m, rfl⟩ : ∃ m, n = m + 1 := ⟨n - 1, by omega⟩
    simp [mkSDPFlowTags, List.range_succ_eq_map]
  · intro gch preC ddsC projC postPreC postDdsC postProjC gcC eaMain convMain
      eaPost convPost flipM lf sig lsig l2p
    simp [mkSDPParams, mkSDPFlowTags, List.map_flatMap]
  · intro p x mask w g ns nq nz T feat hpre
    simp [sdpForward, hpre, sdpSample]

/-- Witness for claim C4 at the default configuration of 4 flows. -/
theorem claim_C4_witness :
    1 ≤ 4
      ∧ (sdpInferenceTags 4 = (mkSDPFlowTags 4).reverse.eraseIdx (2 * 4 - 1)
          ∧ (mkSDPFlowTags 4).reverse[2 * 4 - 1]? = some (SDPFlowTag.conv 0)
          ∧ (∀ f : SDPFlowTag → FlowMod,
              invList ((mkSDPFlowTags 4).map f) = (sdpInferenceTags 4).map f)
          ∧ (∀ (gch : Int) (preC : Mat → Mat) (ddsC : Mat → Mask → Mat) (projC : Mat → Mat)
              (postPreC : Mat → Mat) (postDdsC : Mat → Mask → Mat) (postProjC : Mat → Mat)
              (gcC : Mat → Mat) (eaMain : FlowMod) (convMain : Nat → FlowMod)
              (eaPost : FlowMod) (convPost : Nat → FlowMod) (flipM : FlowMod)
              (lf : Mat → Mask → Mat × ℚ) (sig lsig : ℚ → ℚ) (l2p : ℚ),
              (mkSDPParams gch 4 preC ddsC projC postPreC postDdsC postProjC gcC
                  eaMain convMain eaPost convPost flipM lf sig lsig l2p).flows
                = (mkSDPFlowTags 4).map (fun tag =>
                    match tag with
                    | SDPFlowTag.ea => eaMain
                    | SDPFlowTag.conv i => convMain i
                    | SDPFlowTag.flip => flipM))
          ∧ (∀ (p : SDPParams) (x : Mat) (mask : Mask) (w g : Option Mat)
              (ns : ℚ) (nq nz : Mat) (T : Nat) (feat : Mat),
              sdpPreamble p x mask g = Except.ok feat →
              sdpForward p x mask w g true ns nq nz T
                = Except.ok (SDPOut.logw (takeRows 1
                    (List.foldl (fun z f => f.inv z mask feat)
                      (fun c t => nz c t * ns) (invList p.flows)))))) :=
  ⟨by norm_num, claim_C4_inference_chain 4 (by norm_num)⟩

/-! ## Likelihood mode of the StochasticDurationPredictor -/

/-- C5: in likelihood mode, for every valid input with w provided, the
predictor returns nll + logq, where nll is the masked standard-normal
negative log-density of the final latent (the forward image of
z = cat(log_flow(z0), z1) under the main flow chain) minus the
accumulated log-determinant of the log flow and of the main flow chain,
and logq is the posterior-encoder log-likelihood of the auxiliary latent:
the masked standard-normal log-density of the posterior noise minus the
log-determinant of the posterior chain and the sigmoid dequantization
correction. -/
theorem claim_C5_likelihood_formula (p : SDPParams) (x : Mat) (mask : Mask)
    (wv : Mat) (g : Option Mat) (ns : ℚ) (nq nz : Mat) (T : Nat) (feat : Mat)
    (hpre : sdpPreamble p x mask g = Except.ok feat) :
    sdpForward p x mask (some wv) g false ns nq nz T
      = Except.ok (SDPOut.nll (
          (sum2 2 T (fun c t =>
              (1/2 : ℚ) * (p.log2pi
                + (chainZ p.flows mask feat
                    (catRows 1
                      (p.logFlow (fun c t => if c = 0 then
                          (wv 0 t - p.sigmoid
                            ((chainZ p.postFlows mask
                              (matAdd feat (maskMul mask (p.postProj (p.postDds (p.postPre wv) mask))))
                              (maskMul mask nq)) 0 t) * mask t) * mask t
                        else 0) mask).1
                      (dropRows 1 1 (chainZ p.postFlows mask
                        (matAdd feat (maskMul mask (p.postProj (p.postDds (p.postPre wv) mask))))
                        (maskMul mask nq)))) c t)^2) * mask t)
            - ((p.logFlow (fun c t => if c = 0 then
                  (wv 0 t - p.sigmoid
                    ((chainZ p.postFlows mask
                      (matAdd feat (maskMul mask (p.postProj (p.postDds (p.postPre wv) mask))))
                      (maskMul mask nq)) 0 t) * mask t) * mask t
                else 0) mask).2
              + chainLD p.flows mask feat
                  (catRows 1
                    (p.logFlow (fun c t => if c = 0 then
                        (wv 0 t - p.sigmoid
                          ((chainZ p.postFlows mask
                            (matAdd feat (maskMul mask (p.postProj (p.postDds (p.postPre wv) mask))))
                            (maskMul mask nq)) 0 t) * mask t) * mask t
                      else 0) mask).1
                    (dropRows 1 1 (chainZ p.postFlows mask
                      (matAdd feat (maskMul mask (p.postProj (p.postDds (p.postPre wv) mask))))
                      (maskMul mask nq))))))
          + (sum2 2 T (fun c t =>
                -(1/2 : ℚ) * (p.log2pi + (maskMul mask nq c t)^2) * mask t)
              - (chainLD p.postFlows mask
                  (matAdd feat (maskMul mask (p.postProj (p.postDds (p.postPre wv) mask))))
                  (maskMul mask nq)
                + ∑ t ∈ Finset.range T,
                    (p.logSigmoid ((chainZ p.postFlows mask
                        (matAdd feat (maskMul mask (p.postProj (p.postDds (p.postPre wv) mask))))
                        (maskMul mask nq)) 0 t)
                      + p.logSigmoid (-((chainZ p.postFlows mask
                          (matAdd feat (maskMul mask (p.postProj (p.postDds (p.postPre wv) mask))))
                          (maskMul mask nq)) 0 t))) * mask t)))) := by
  simp only [sdpForward, hpre]
  refine congrArg (fun v => Except.ok (SDPOut.nll v)) ?_
  simp only [sdpLikelihood]
  rw [chain_pair_eq, chain_pair_eq]
  ring

/-! ## Error handling and determinism of the duration predictor -/

/-- An identity flow module used for concrete evaluation. -/
def idFlow : FlowMod := { fwd := fun z _ _ => (z, 0), inv := fun z _ _ => z }

/-- A concrete predictor: global_channels = -1 (so no global projection
exists), zero flows, identity submodules. -/
def sdpP0 : SDPParams :=
  mkSDPParams (-1) 0 (fun x => x) (fun x _ => x) (fun x => x)
    (fun x => x) (fun x _ => x) (fun x => x) (fun x => x)
    idFlow (fun _ => idFlow) idFlow (fun _ => idFlow) idFlow
    (fun z _ => (z, 0)) (fun q => q) (fun q => q) 0

/-- Witness for claim C5: on the concrete predictor sdpP0 with all-zero
inputs and T = 0, likelihood mode returns a zero negative
log-likelihood. -/
theorem claim_C5_witness :
    sdpForward sdpP0 matZero onesMask (some matZero) none false 1 matZero matZero 0
      = Except.ok (SDPOut.nll 0) := by
  have h := claim_C5_likelihood_formula sdpP0 matZero onesMask matZero none 1
    matZero matZero 0
    (maskMul onesMask (sdpP0.proj (sdpP0.dds (sdpP0.pre matZero) onesMask))) rfl
  rw [h]
  norm_num [sum2, chainZ, chainLD, stepP, sdpP0, mkSDPParams, idFlow]

/-- C7: calling the predictor in likelihood mode with the duration tensor
omitted fails on the `assert w is not None` (modelled as the InvalidInputError of the
specification) and produces no result, for every call that does not
already fail on the global-conditioning projection. -/
theorem claim_C7_missing_w (p : SDPParams) (x : Mat) (mask : Mask) (g : Option Mat)
    (ns : ℚ) (nq nz : Mat) (T : Nat)
    (h : g = none ∨ p.globalConv ≠ none) :
    sdpForward p x mask none g false ns nq nz T = Except.error SDPErr.invalidInput := by
  rcases h with h | h
  · subst h; simp [sdpForward, sdpPreamble]
  · cases g with
    | none => simp [sdpForward, sdpPreamble]
    | some gv =>
      cases hc : p.globalConv with
      | none => exact absurd hc h
      | some gc => simp [sdpForward, sdpPreamble, hc]

/-- Witness for claim C7 on the concrete predictor sdpP0. -/
theorem claim_C7_witness :
    sdpForward sdpP0 matZero onesMask none none false 1 matZero matZero 0
      = Except.error SDPErr.invalidInput :=
  claim_C7_missing_w sdpP0 matZero onesMask none 1 matZero matZero 0 (Or.inl rfl)

/-- Unfolding sdpForward when the preamble fails. -/
theorem sdpForward_preamble_err (p : SDPParams) (x : Mat) (mask : Mask)
    (w g : Option Mat) (inverse : Bool) (ns : ℚ) (nq nz : Mat) (T : Nat)
    (e : SDPErr) (hpre : sdpPreamble p x mask g = Except.error e) :
    sdpForward p x mask w g inverse ns nq nz T = Except.error e := by
  unfold sdpForward
  rw [hpre]

/-- Unfolding sdpForward when the preamble succeeds. -/
theorem sdpForward_preamble_ok (p : SDPParams) (x : Mat) (mask : Mask)
    (w g : Option Mat) (inverse : Bool) (ns : ℚ) (nq nz : Mat) (T : Nat)
    (feat : Mat) (hpre : sdpPreamble p x mask g = Except.ok feat) :
    sdpForward p x mask w g inverse ns nq nz T
      = if inverse = false then
          (match w with
            | none => Except.error SDPErr.invalidInput
            | some wv => Except.ok (SDPOut.nll (sdpLikelihood p feat mask wv nq T)))
        else Except.ok (SDPOut.logw (sdpSample p feat mask ns nz)) := by
  unfold sdpForward
  rw [hpre]

/-- C8: sampling mode is deterministic given the drawn noise: its output
is a function of the parameters, x, x_mask, g, noise_scale and the
sampling noise draw alone — two runs agreeing on those produce identical
logw even if they differ in the (unused) duration argument and posterior
noise draw. -/
theorem claim_C8_sampling_deterministic (p : SDPParams) (x : Mat) (mask : Mask)
    (g : Option Mat) (ns : ℚ) (nz : Mat) (w w2 : Option Mat) (nq nq2 : Mat) (T : Nat) :
    sdpForward p x mask w g true ns nq nz T
      = sdpForward p x mask w2 g true ns nq2 nz T := by
  cases hp : sdpPreamble p x mask g with
  | error e =>
    rw [sdpForward_preamble_err p x mask w g true ns nq nz T e hp,
      sdpForward_preamble_err p x mask w2 g true ns nq2 nz T e hp]
  | ok feat =>
    rw [sdpForward_preamble_ok p x mask w g true ns nq nz T feat hp,
      sdpForward_preamble_ok p x mask w2 g true ns nq2 nz T feat hp,
      if_neg (by decide), if_neg (by decide)]

/-- C9: a predictor constructed with global_channels <= 0 has no global
projection convolution, so passing a global conditioning tensor fails in
both modes; when the projection exists and g is given, the projected g is
added to the internal feature by the mode-independent preamble, and both
mode branches consume that same feature. -/
theorem claim_C9_global_conditioning :
    (∀ (gch : Int) (n : Nat) (preC : Mat → Mat) (ddsC : Mat → Mask → Mat)
        (projC : Mat → Mat) (postPreC : Mat → Mat) (postDdsC : Mat → Mask → Mat)
        (postProjC : Mat → Mat) (gcC : Mat → Mat) (eaMain : FlowMod)
        (convMain : Nat → FlowMod) (eaPost : FlowMod) (convPost : Nat → FlowMod)
        (flipM : FlowMod) (lf : Mat → Mask → Mat × ℚ) (sig lsig : ℚ → ℚ) (l2p : ℚ),
        gch ≤ 0 →
        (mkSDPParams gch n preC ddsC projC postPreC postDdsC postProjC gcC
            eaMain convMain eaPost convPost flipM lf sig lsig l2p).globalConv = none)
      ∧ (∀ (p : SDPParams) (x : Mat) (mask : Mask) (w : Option Mat) (gv : Mat)
          (inverse : Bool) (ns : ℚ) (nq nz : Mat) (T : Nat),
          p.globalConv = none →
          sdpForward p x mask w (some gv) inverse ns nq nz T
            = Except.error SDPErr.missingGlobalConv)
      ∧ (∀ (p : SDPParams) (gc : Mat → Mat) (x : Mat) (mask : Mask) (gv : Mat),
          p.globalConv = some gc →
          sdpPreamble p x mask (some gv)
            = Except.ok (maskMul mask (p.proj (p.dds (matAdd (p.pre x) (gc gv)) mask))))
      ∧ (∀ (p : SDPParams) (x : Mat) (mask : Mask) (w : Option Mat) (g : Option Mat)
          (ns : ℚ) (nq nz : Mat) (T : Nat) (feat : Mat),
          sdpPreamble p x mask g = Except.ok feat →
          sdpForward p x mask w g false ns nq nz T
              = (match w with
                  | none => Except.error SDPErr.invalidInput
                  | some wv => Except.ok (SDPOut.nll (sdpLikelihood p feat mask wv nq T)))
            ∧ sdpForward p x mask w g true ns nq nz T
              = Except.ok (SDPOut.logw (sdpSample p feat mask ns nz))) := by
  refine ⟨?_, ?_, ?_, ?_⟩
  · intro gch n preC ddsC projC postPreC postDdsC postProjC gcC eaMain convMain
      eaPost convPost flipM lf sig lsig l2p hle
    simp only [mkSDPParams]
    rw [if_neg (by omega)]
  · intro p x mask w gv inverse ns nq nz T hnone
    have hpre : sdpPreamble p x mask (some gv) = Except.error SDPErr.missingGlobalConv := by
      unfold sdpPreamble
      rw [hnone]
    exact sdpForward_preamble_err p x mask w (some gv) inverse ns nq nz T _ hpre
  · intro p gc x mask gv hsome
    unfold sdpPreamble
    rw [hsome]
  · intro p x mask w g ns nq nz T feat hpre
    refine ⟨?_, ?_⟩
    · rw [sdpForward_preamble_ok p x mask w g false ns nq nz T feat hpre,
        if_pos rfl]
    · rw [sdpForward_preamble_ok p x mask w g true ns nq nz T feat hpre,
        if_neg (by decide)]

/-- Witness for claim C9: the concrete predictor sdpP0 was built with
global_channels = -1, has no global projection, and fails in sampling
mode when a global conditioning tensor is passed. -/
theorem claim_C9_witness :
    ((-1 : Int) ≤ 0 ∧ sdpP0.globalConv = none)
      ∧ sdpForward sdpP0 matZero onesMask none (some matZero) true 1 matZero matZero 0
        = Except.error SDPErr.missingGlobalConv := by
  have h1 : sdpP0.globalConv = none :=
    claim_C9_global_conditioning.1 (-1) 0 (fun x => x) (fun x _ => x) (fun x => x)
      (fun x => x) (fun x _ => x) (fun x => x) (fun x => x)
      idFlow (fun _ => idFlow) idFlow (fun _ => idFlow) idFlow
      (fun z _ => (z, 0)) (fun q => q) (fun q => q) 0 (by norm_num)
  exact ⟨⟨by norm_num, h1⟩,
    claim_C9_global_conditioning.2.1 sdpP0 matZero onesMask none matZero true 1
      matZero matZero 0 h1⟩

/-! ## compute_fbank_ljspeech.py -/

/-- An abstract filesystem: the set of existing file paths. -/
structure FS where
  files : List String
deriving DecidableEq

/-- The externally visible steps of `compute_spectrogram_ljspeech`, in
order: loading a manifest, testing the output cuts file for existence,
building the cut set from the manifests, computing and storing features,
and writing the cuts file. -/
inductive FbankStep
  | loadManifest (path : String)
  | checkOutput (path : String)
  | makeCutSet
  | computeAndStoreFeatures (storagePath : String)
  | writeCuts (path : String)
deriving DecidableEq

/-- The function `compute_spectrogram_ljspeech` (lines 46-93): load the recording and
supervision manifests, then — inside the executor context — if the output
cuts file already exists, log and return; otherwise build the cut set,
compute and store features, and write the cuts file.  The result is the
final filesystem and the ordered step trace. -/
def compute_spectrogram_ljspeech (fs : FS) : FS × List FbankStep :=
  let srcDir := "data/manifests"
  let outputDir := "data/fbank"
  let pfx := "ljspeech"
  let sfx := "jsonl.gz"
  let part := "all"
  let recPath := srcDir ++ "/" ++ pfx ++ "_recordings_" ++ part ++ "." ++ sfx
  let supPath := srcDir ++ "/" ++ pfx ++ "_supervisions_" ++ part ++ "." ++ sfx
  let cutsFilename := pfx ++ "_cuts_" ++ part ++ "." ++ sfx
  let cutsPath := outputDir ++ "/" ++ cutsFilename
  let featsPath := outputDir ++ "/" ++ pfx ++ "_feats_" ++ part
  let steps0 := [FbankStep.loadManifest recPath, FbankStep.loadManifest supPath,
    FbankStep.checkOutput cutsPath]
  if cutsPath ∈ fs.files then
    (fs, steps0)
  else
    (⟨fs.files ++ [featsPath, cutsPath]⟩,
      steps0 ++ [FbankStep.makeCutSet,
        FbankStep.computeAndStoreFeatures featsPath,
        FbankStep.writeCuts cutsPath])

/-- C10: when data/fbank/ljspeech_cuts_all.jsonl.gz already exists, the
function returns right after the existence check: the filesystem is left
unchanged and the trace consists of the two manifest loads and the check
only — no cut set is built from the manifests, no features are computed,
and nothing is written. -/
theorem claim_C10_skip_idempotent (fs : FS)
    (h : "data/fbank/ljspeech_cuts_all.jsonl.gz" ∈ fs.files) :
    (compute_spectrogram_ljspeech fs).1 = fs
      ∧ (compute_spectrogram_ljspeech fs).2
        = [FbankStep.loadManifest "data/manifests/ljspeech_recordings_all.jsonl.gz",
           FbankStep.loadManifest "data/manifests/ljspeech_supervisions_all.jsonl.gz",
           FbankStep.checkOutput "data/fbank/ljspeech_cuts_all.jsonl.gz"]
      ∧ (∀ s ∈ (compute_spectrogram_ljspeech fs).2,
          s ≠ FbankStep.makeCutSet
            ∧ (∀ sp, s ≠ FbankStep.computeAndStoreFeatures sp)
            ∧ (∀ cp, s ≠ FbankStep.writeCuts cp)) := by
  have he : compute_spectrogram_ljspeech fs
      = if "data/fbank/ljspeech_cuts_all.jsonl.gz" ∈ fs.files then
          (fs, [FbankStep.loadManifest "data/manifests/ljspeech_recordings_all.jsonl.gz",
            FbankStep.loadManifest "data/manifests/ljspeech_supervisions_all.jsonl.gz",
            FbankStep.checkOutput "data/fbank/ljspeech_cuts_all.jsonl.gz"])
        else
          (FS.mk (fs.files ++ ["data/fbank/ljspeech_feats_all",
              "data/fbank/ljspeech_cuts_all.jsonl.gz"]),
            [FbankStep.loadManifest "data/manifests/ljspeech_recordings_all.jsonl.gz",
              FbankStep.loadManifest "data/manifests/ljspeech_supervisions_all.jsonl.gz",
              FbankStep.checkOutput "data/fbank/ljspeech_cuts_all.jsonl.gz",
              FbankStep.makeCutSet,
              FbankStep.computeAndStoreFeatures "data/fbank/ljspeech_feats_all",
              FbankStep.writeCuts "data/fbank/ljspeech_cuts_all.jsonl.gz"]) := rfl
  have hb : compute_spectrogram_ljspeech fs
      = (fs, [FbankStep.loadManifest "data/manifests/ljspeech_recordings_all.jsonl.gz",
          FbankStep.loadManifest "data/manifests/ljspeech_supervisions_all.jsonl.gz",
          FbankStep.checkOutput "data/fbank/ljspeech_cuts_all.jsonl.gz"]) := by
    rw [he, if_pos h]
  refine ⟨by rw [hb], by rw [hb], ?_⟩
  rw [hb]
  intro s hs
  simp only [List.mem_cons, List.not_mem_nil, or_false] at hs
  rcases hs with rfl | rfl | rfl <;>
    exact ⟨nofun, fun sp => nofun, fun cp => nofun⟩

/-- Witness for claim C10: a filesystem that already holds the cuts
file. -/
theorem claim_C10_witness :
    ("data/fbank/ljspeech_cuts_all.jsonl.gz"
        ∈ (FS.mk ["data/fbank/ljspeech_cuts_all.jsonl.gz"]).files)
      ∧ (compute_spectrogram_ljspeech (FS.mk ["data/fbank/ljspeech_cuts_all.jsonl.gz"])).1
        = FS.mk ["data/fbank/ljspeech_cuts_all.jsonl.gz"]
      ∧ (compute_spectrogram_ljspeech (FS.mk ["data/fbank/ljspeech_cuts_all.jsonl.gz"])).2
        = [FbankStep.loadManifest "data/manifests/ljspeech_recordings_all.jsonl.gz",
           FbankStep.loadManifest "data/manifests/ljspeech_supervisions_all.jsonl.gz",
           FbankStep.checkOutput "data/fbank/ljspeech_cuts_all.jsonl.gz"] := by
  have hmem : "data/fbank/ljspeech_cuts_all.jsonl.gz"
      ∈ (FS.mk ["data/fbank/ljspeech_cuts_all.jsonl.gz"]).files := by
    simp
  have h := claim_C10_skip_idempotent (FS.mk ["data/fbank/ljspeech_cuts_all.jsonl.gz"]) hmem
  exact ⟨hmem, h.1, h.2.1⟩

end Vits2
